import Mathlib

/-
Formal model of the pysftp library (version 0.2.4): a thin SFTP
convenience layer over an external transport/session collaborator.
The definitions below are a shallow embedding of src/pysftp.py and,
for helper functions that the repository only exercises through its
test suite, of the accompanying specification. Theorems settle the
frozen claims about credential resolution, path algebra, existence
helpers, makedirs, connection lifecycle, and mode conversion.
-/

/- ===== Credential resolution (src/pysftp.py, Connection.__init__, lines 100-128) ===== -/

/-- Model of the private_key argument: either a preloaded agent key object
or a path string to a key file. -/
inductive PrivateKeyArg
  | agentKey
  | keyPath (path : String)
deriving DecidableEq

/-- Model of the local environment probed by the constructor: whether the
two conventional default key files exist. -/
structure LocalEnv where
  id_rsa_exists : Bool
  id_dsa_exists : Bool
deriving DecidableEq

/-- Authentication directive selected at construction: either
transport.connect with a password, or transport.connect with a key. -/
inductive AuthDirective
  | usePassword (pw : String)
  | useKey (key : PrivateKeyArg)
deriving DecidableEq

/-- Errors raised during credential resolution. -/
inductive InitError
  | credentialError (msg : String)
deriving DecidableEq

/-- Python truthiness of the private_key argument: None is falsy and an
empty path string is falsy (the source tests it with: if not private_key). -/
def pyFalsyKey : Option PrivateKeyArg → Bool
  | none => true
  | some PrivateKeyArg.agentKey => false
  | some (PrivateKeyArg.keyPath s) => s.isEmpty

/-- Credential resolution from Connection.__init__ lines 100-128: prefer a
password if one was given; otherwise, if no (truthy) private key was given,
probe the default locations id_rsa then id_dsa; if neither exists, raise
CredentialException. -/
def resolveAuth (password : Option String) (private_key : Option PrivateKeyArg)
    (env : LocalEnv) : Except InitError AuthDirective :=
  match password with
  | some pw => Except.ok (AuthDirective.usePassword pw)
  | none =>
    if pyFalsyKey private_key then
      if env.id_rsa_exists then
        Except.ok (AuthDirective.useKey (PrivateKeyArg.keyPath "~/.ssh/id_rsa"))
      else if env.id_dsa_exists then
        Except.ok (AuthDirective.useKey (PrivateKeyArg.keyPath "~/.ssh/id_dsa"))
      else
        Except.error (InitError.credentialError "You have not specified a password or key.")
    else
      match private_key with
      | some k => Except.ok (AuthDirective.useKey k)
      | none => Except.error (InitError.credentialError "unreachable")

/- ===== Path algebra ===== -/

/-- Modelled from the spec: a remote path, per section 3 of the spec, is an
ordered sequence of segments separated by a slash delimiter together with an
absolute/relative marker. The path helper functions are absent from
src/pysftp.py (the tests reference pysftp.path_advance and
pysftp.path_retreat). -/
structure SftpPath where
  absolute : Bool
  segs : List String
deriving DecidableEq

/-- Render a segment sequence with slash delimiters. -/
def renderSegs : List String → String
  | [] => ""
  | [s] => s
  | s :: rest => s ++ "/" ++ renderSegs rest

/-- Render a path: a leading delimiter for absolute paths, then the
delimited segments. -/
def SftpPath.render (p : SftpPath) : String :=
  (if p.absolute then "/" else "") ++ renderSegs p.segs

/-- Modelled from the spec: the prefix-advance order on segment sequences
(spec 4.3, descendants-building): the shortest non-empty prefix first,
extending one segment at a time up to and including the full sequence. -/
def advanceSegs : List String → List (List String)
  | [] => []
  | s :: rest => [s] :: (advanceSegs rest).map (fun l => s :: l)

/-- Modelled from the spec: the retreat order (spec 4.3, ancestors): the
full sequence first, then each shorter prefix obtained by removing the last
segment, down to but not including the empty sequence. -/
def retreatSegs : List String → List (List String)
  | [] => []
  | s :: rest => ((retreatSegs rest).map (fun l => s :: l)) ++ [[s]]

/-- Modelled from the spec: path_advance yields the rendered prefixes of a
path, shortest to longest, the leading delimiter kept on each. -/
def path_advance (p : SftpPath) : List String :=
  (advanceSegs p.segs).map (fun l => SftpPath.render ⟨p.absolute, l⟩)

/-- Modelled from the spec: path_retreat yields the rendered prefixes of a
path, longest to shortest, the leading delimiter kept on each. -/
def path_retreat (p : SftpPath) : List String :=
  (retreatSegs p.segs).map (fun l => SftpPath.render ⟨p.absolute, l⟩)

/-- Prefixes of a path as structured paths, shortest to longest; used by
makedirs. -/
def advancePaths (p : SftpPath) : List SftpPath :=
  (advanceSegs p.segs).map (fun l => ⟨p.absolute, l⟩)

/- ===== Python numeric string conversion (for mkdir mode and st_mode_to_int) ===== -/

/-- Decimal digit character for a digit value below ten. -/
def digitToChar (d : Nat) : Char := Char.ofNat (48 + d)

/-- Parse one character as a digit in base b (b at most ten), as Python
int(s, b) accepts it. -/
def pyParseDigit (b : Nat) (c : Char) : Option Nat :=
  if 48 ≤ c.toNat ∧ c.toNat < 48 + b then some (c.toNat - 48) else none

/-- Left-to-right accumulator loop of Python int(s, b). -/
def pyParseIntCore (b : Nat) : List Char → Nat → Option Nat
  | [], acc => some acc
  | c :: cs, acc =>
    match pyParseDigit b c with
    | some d => pyParseIntCore b cs (acc * b + d)
    | none => none

/-- Python int(s, b) on a plain digit string: error (none) on an empty
string or any character that is not a digit of base b. -/
def pyParseInt (b : Nat) (cs : List Char) : Option Nat :=
  if cs.isEmpty then none else pyParseIntCore b cs 0

/-- Python str(n) for a nonnegative integer: its decimal digit characters. -/
def pyStrOfNat (n : Nat) : List Char :=
  if n = 0 then ['0'] else ((Nat.digits 10 n).reverse).map digitToChar

/-- Python 2 oct(n) for a nonnegative integer: a leading zero character
followed by the octal digit characters (just the zero character for zero). -/
def pyOct (n : Nat) : List Char :=
  if n = 0 then ['0'] else '0' :: ((Nat.digits 8 n).reverse).map digitToChar

/-- Mode argument of Connection.mkdir: an integer or a string. -/
inductive PyModeArg
  | int (n : Nat)
  | str (s : List Char)
deriving DecidableEq

/-- Python str(mode): identity on strings, decimal rendering on integers. -/
def pyStrOfMode : PyModeArg → List Char
  | PyModeArg.int n => pyStrOfNat n
  | PyModeArg.str s => s

/-- Mode value passed to the session primitive by Connection.mkdir
(src/pysftp.py line 262): int(str(mode), 8); none models the ValueError
Python raises when the digits are not octal. -/
def mkdirSessionMode (mode : PyModeArg) : Option Nat :=
  pyParseInt 8 (pyStrOfMode mode)

/-- S_IMODE from the stat module: the low twelve permission bits. -/
def S_IMODE (val : Nat) : Nat := val &&& 0o7777

/-- st_mode_to_int from src/pysftp.py lines 15-20:
int(str(oct(S_IMODE(val)))), under Python 2 semantics of oct. -/
def st_mode_to_int (val : Nat) : Option Nat :=
  pyParseInt 10 (pyOct (S_IMODE val))

/- ===== Remote filesystem model (for the existence helpers and makedirs) ===== -/

/-- Modelled from the spec: a remote directory entry as seen by the
stat-like session primitives (spec sections 3 and 4.4); the existence
helpers exists, lexists, isfile, isdir and makedirs are absent from
src/pysftp.py (referenced only by the tests). The key type is abstract. -/
inductive REntry (α : Type)
  | file
  | dir
  | symlink (target : α)
deriving DecidableEq

/-- Remote filesystem: an association list from paths to entries. -/
abbrev RemoteFS (α : Type) := List (α × REntry α)

/-- First-match association lookup. -/
def lookupFS {α : Type} [DecidableEq α] : RemoteFS α → α → Option (REntry α)
  | [], _ => none
  | (q, e) :: rest, p => if p = q then some e else lookupFS rest p

/-- Errors surfaced by the session primitives: a not-found condition, an
already-exists condition, or any other I/O error. -/
inductive SftpErr
  | noSuchFile
  | alreadyExists
  | otherError
deriving DecidableEq

/-- Resolved file kind reported by a successful stat. -/
inductive FileKind
  | file
  | dir
deriving DecidableEq

/-- Modelled from the spec: the stat session primitive follows symlinks
(spec 4.4); fuel bounds symlink chains, and exhausting it reports a
non-not-found I/O error (a symlink loop). -/
def statResolve {α : Type} [DecidableEq α] (fs : RemoteFS α) : Nat → α → Except SftpErr FileKind
  | 0, _ => Except.error SftpErr.otherError
  | fuel + 1, p =>
    match lookupFS fs p with
    | none => Except.error SftpErr.noSuchFile
    | some REntry.file => Except.ok FileKind.file
    | some REntry.dir => Except.ok FileKind.dir
    | some (REntry.symlink t) => statResolve fs fuel t

/-- Stat following symlinks, with fuel larger than the entry count so that
every loop-free chain resolves. -/
def statFS {α : Type} [DecidableEq α] (fs : RemoteFS α) (p : α) : Except SftpErr FileKind :=
  statResolve fs (fs.length + 1) p

/-- Lstat: does not follow symlinks; succeeds exactly when the path has an
entry. -/
def lstatFS {α : Type} [DecidableEq α] (fs : RemoteFS α) (p : α) : Except SftpErr (REntry α) :=
  match lookupFS fs p with
  | none => Except.error SftpErr.noSuchFile
  | some e => Except.ok e

/-- Modelled from the spec: exists(path) is true iff stat succeeds; a
not-found error from stat becomes false, every other error propagates
(spec 4.4). -/
def existsFS {α : Type} [DecidableEq α] (fs : RemoteFS α) (p : α) : Except SftpErr Bool :=
  match statFS fs p with
  | Except.ok _ => Except.ok true
  | Except.error SftpErr.noSuchFile => Except.ok false
  | Except.error e => Except.error e

/-- Modelled from the spec: lexists(path) is the same as exists but uses
lstat (spec 4.4). -/
def lexistsFS {α : Type} [DecidableEq α] (fs : RemoteFS α) (p : α) : Except SftpErr Bool :=
  match lstatFS fs p with
  | Except.ok _ => Except.ok true
  | Except.error SftpErr.noSuchFile => Except.ok false
  | Except.error e => Except.error e

/-- Modelled from the spec: isfile stats the path (following symlinks) and
tests the file-type bits; a not-found error yields false (spec 4.4). -/
def isfileFS {α : Type} [DecidableEq α] (fs : RemoteFS α) (p : α) : Except SftpErr Bool :=
  match statFS fs p with
  | Except.ok k => Except.ok (k = FileKind.file)
  | Except.error SftpErr.noSuchFile => Except.ok false
  | Except.error e => Except.error e

/-- Modelled from the spec: isdir stats the path (following symlinks) and
tests the file-type bits; a not-found error yields false (spec 4.4). -/
def isdirFS {α : Type} [DecidableEq α] (fs : RemoteFS α) (p : α) : Except SftpErr Bool :=
  match statFS fs p with
  | Except.ok k => Except.ok (k = FileKind.dir)
  | Except.error SftpErr.noSuchFile => Except.ok false
  | Except.error e => Except.error e

/-- Mkdir session primitive: creates a directory entry at a path with no
entry, reports already-exists otherwise. -/
def mkdirFS {α : Type} [DecidableEq α] (fs : RemoteFS α) (p : α) : Except SftpErr (RemoteFS α) :=
  match lookupFS fs p with
  | some _ => Except.error SftpErr.alreadyExists
  | none => Except.ok (fs ++ [(p, REntry.dir)])

/-- Modelled from the spec: the makedirs walk (spec 4.4): attempt mkdir on
each prefix in the given order, tolerate already-exists errors, propagate
any other error; also returns the list of prefixes actually created. -/
def makedirsGo {α : Type} [DecidableEq α] (fs : RemoteFS α) :
    List α → Except SftpErr (RemoteFS α × List α)
  | [] => Except.ok (fs, [])
  | q :: rest =>
    match mkdirFS fs q with
    | Except.ok fs2 =>
      match makedirsGo fs2 rest with
      | Except.ok (fs3, created) => Except.ok (fs3, q :: created)
      | Except.error e => Except.error e
    | Except.error SftpErr.alreadyExists => makedirsGo fs rest
    | Except.error e => Except.error e

/-- Modelled from the spec: makedirs(path) walks the prefixes of the path
in prefix-advance (shortest to longest) order, creating each missing one
with mkdir and tolerating already-exists errors (spec 4.4). -/
def makedirsFS (fs : RemoteFS SftpPath) (p : SftpPath) :
    Except SftpErr (RemoteFS SftpPath × List SftpPath) :=
  makedirsGo fs (advancePaths p)

/- ===== Connection lifecycle model (src/pysftp.py) ===== -/

/-- Lifecycle-relevant state of a fully constructed Connection: the two
liveness flags (the source misspells the transport one as _tranport_live),
plus counters of collaborator calls: protocol sessions created from the
transport and command channels opened on it. -/
structure ConnState where
  sftp_live : Bool
  tranport_live : Bool
  sessionsCreated : Nat
  channelsOpened : Nat
deriving DecidableEq

/-- Runtime errors of the lifecycle model: the collaborator raises when a
session or channel is requested from a closed transport. -/
inductive PyErr
  | sessionNotActive
deriving DecidableEq

/-- Connection._sftp_connect (src/pysftp.py lines 130-134): if the session
flag is down, create the protocol session from the transport and raise the
flag; the collaborator call SFTPClient.from_transport raises when the
transport is closed, leaving the state unchanged. -/
def sftpConnect (s : ConnState) : Except PyErr ConnState :=
  if s.sftp_live then Except.ok s
  else if s.tranport_live then
    Except.ok { s with sftp_live := true, sessionsCreated := s.sessionsCreated + 1 }
  else Except.error PyErr.sessionNotActive

/-- The thirteen session-delegating remote-operation methods of Connection. -/
inductive SftpMethod
  | get | getfo | put | chdir | getcwd | listdir | mkdir
  | remove | rmdir | rename | stat | lstat | openFile
deriving DecidableEq

/-- Lifecycle effect of each session-delegating method: every one of
get (line 153), getfo (171), put (193), chdir (226), getcwd (235),
listdir (247), mkdir (261), remove (275), rmdir (287), rename (303),
stat (315), lstat (327) and open (360) first calls _sftp_connect and then
delegates to the session primitive, which touches no lifecycle state. -/
def methodStep (m : SftpMethod) (s : ConnState) : Except PyErr ConnState :=
  match m with
  | SftpMethod.get => sftpConnect s
  | SftpMethod.getfo => sftpConnect s
  | SftpMethod.put => sftpConnect s
  | SftpMethod.chdir => sftpConnect s
  | SftpMethod.getcwd => sftpConnect s
  | SftpMethod.listdir => sftpConnect s
  | SftpMethod.mkdir => sftpConnect s
  | SftpMethod.remove => sftpConnect s
  | SftpMethod.rmdir => sftpConnect s
  | SftpMethod.rename => sftpConnect s
  | SftpMethod.stat => sftpConnect s
  | SftpMethod.lstat => sftpConnect s
  | SftpMethod.openFile => sftpConnect s

/-- Connection.execute (src/pysftp.py lines 197-214): opens a dedicated
channel directly on the transport (transport.open_session) without calling
_sftp_connect; the collaborator raises on a closed transport. -/
def executeStep (s : ConnState) : Except PyErr ConnState :=
  if s.tranport_live then
    Except.ok { s with channelsOpened := s.channelsOpened + 1 }
  else Except.error PyErr.sessionNotActive

/-- Connection.close (src/pysftp.py lines 330-339) on a fully constructed
Connection: close the session if its flag is up, then the transport if its
flag is up. -/
def closeStep (s : ConnState) : ConnState :=
  let s1 := if s.sftp_live then { s with sftp_live := false } else s
  if s1.tranport_live then { s1 with tranport_live := false } else s1

/-- Operations available on a constructed Connection. -/
inductive ConnOp
  | method (m : SftpMethod)
  | execute
  | close
deriving DecidableEq

/-- One step of the Connection lifecycle; a raised collaborator error
leaves the lifecycle state as it was at the raise. -/
def connStep (s : ConnState) (op : ConnOp) : ConnState :=
  match op with
  | ConnOp.method m =>
    match methodStep m s with
    | Except.ok s2 => s2
    | Except.error _ => s
  | ConnOp.execute =>
    match executeStep s with
    | Except.ok s2 => s2
    | Except.error _ => s
  | ConnOp.close => closeStep s

/-- Run a sequence of operations. -/
def runOps (s : ConnState) (ops : List ConnOp) : ConnState :=
  ops.foldl connStep s

/-- State right after a successful __init__ (lines 80-128): no session yet,
transport live. -/
def initConnState : ConnState :=
  { sftp_live := false, tranport_live := true, sessionsCreated := 0, channelsOpened := 0 }

/- ===== Partially initialized Connection and close safety ===== -/

/-- Attribute-level view of a possibly partially constructed Connection:
none means the attribute was never assigned (reading it raises
AttributeError in Python). -/
structure PyAttrState where
  sftp_live : Option Bool
  tranport_live : Option Bool
deriving DecidableEq

/-- Runtime error of attribute access on a partially constructed object. -/
inductive PyRuntimeErr
  | attributeError
deriving DecidableEq

/-- Observable release actions performed by close. -/
inductive CloseEvent
  | sftpClosed
  | transportClosed
deriving DecidableEq

/-- Connection.close (src/pysftp.py lines 330-339) at attribute level: read
_sftp_live (AttributeError if unset), close the session if it is up; then
read _tranport_live (AttributeError if unset), close the transport if it is
up. Returns the new state and the release actions in order. -/
def pyClose (s : PyAttrState) : Except PyRuntimeErr (PyAttrState × List CloseEvent) :=
  match s.sftp_live with
  | none => Except.error PyRuntimeErr.attributeError
  | some sl =>
    let s1 : PyAttrState := if sl then { s with sftp_live := some false } else s
    let ev1 : List CloseEvent := if sl then [CloseEvent.sftpClosed] else []
    match s1.tranport_live with
    | none => Except.error PyRuntimeErr.attributeError
    | some tl =>
      if tl then Except.ok ({ s1 with tranport_live := some false }, ev1 ++ [CloseEvent.transportClosed])
      else Except.ok (s1, ev1)

/-- Points at which __init__ (src/pysftp.py lines 80-128) can raise. -/
inductive InitFailPoint
  | lognameLookup
  | logSetup
  | transportCtor
  | authenticate
deriving DecidableEq

/-- Attribute state left behind when __init__ raises at each point:
_sftp_live is assigned first (line 80); _tranport_live only at line 92,
after the username lookup (line 83) and the log setup (lines 86-89); it
becomes true only once the transport is constructed (line 95). -/
def stateAtFailure : InitFailPoint → PyAttrState
  | InitFailPoint.lognameLookup => { sftp_live := some false, tranport_live := none }
  | InitFailPoint.logSetup => { sftp_live := some false, tranport_live := none }
  | InitFailPoint.transportCtor => { sftp_live := some false, tranport_live := some false }
  | InitFailPoint.authenticate => { sftp_live := some false, tranport_live := some true }

/- ===== Default destination paths of get and put (src/pysftp.py lines 151-154, 191-195) ===== -/

/-- Tail component of os.path.split: everything after the last slash. -/
def pyBasename (cs : List Char) : List Char :=
  (((cs.reverse).takeWhile (fun c => c ≠ '/')).reverse)

/-- Effective local destination of Connection.get (lines 151-152): when the
localpath argument is absent or empty (falsy), the tail of the remote path;
otherwise the argument itself. -/
def getEffectiveLocal (remotepath : List Char) : Option (List Char) → List Char
  | none => pyBasename remotepath
  | some l => if l.isEmpty then pyBasename remotepath else l

/-- Effective remote destination of Connection.put (lines 191-192): when
the remotepath argument is absent or empty (falsy), the tail of the local
path; otherwise the argument itself. -/
def putEffectiveRemote (localpath : List Char) : Option (List Char) → List Char
  | none => pyBasename localpath
  | some r => if r.isEmpty then pyBasename localpath else r

/- ===== Lemmas: path algebra ===== -/

theorem advanceSegs_length (l : List String) : (advanceSegs l).length = l.length := by
  induction l with
  | nil => rfl
  | cons s rest ih => simp [advanceSegs, ih]

theorem retreatSegs_eq_reverse_advanceSegs (l : List String) :
    retreatSegs l = (advanceSegs l).reverse := by
  induction l with
  | nil => rfl
  | cons s rest ih => simp [advanceSegs, retreatSegs, ih, List.map_reverse]

theorem advanceSegs_mem_ne_nil (l : List String) : ∀ x ∈ advanceSegs l, x ≠ [] := by
  induction l with
  | nil => simp [advanceSegs]
  | cons s rest ih =>
    intro x hx
    rcases List.mem_cons.mp hx with h | h
    · subst h; simp
    · rcases List.mem_map.mp h with ⟨y, _, rfl⟩
      simp

theorem advanceSegs_mem_subset (l : List String) :
    ∀ x ∈ advanceSegs l, ∀ s ∈ x, s ∈ l := by
  induction l with
  | nil => simp [advanceSegs]
  | cons s rest ih =>
    intro x hx t ht
    rcases List.mem_cons.mp hx with h | h
    · subst h
      simp at ht
      simp [ht]
    · rcases List.mem_map.mp h with ⟨y, hy, rfl⟩
      rcases List.mem_cons.mp ht with h2 | h2
      · simp [h2]
      · exact List.mem_cons.mpr (Or.inr (ih y hy t h2))

theorem advanceSegs_pairwise_length (l : List String) :
    (advanceSegs l).Pairwise (fun a b => a.length < b.length) := by
  induction l with
  | nil => simp [advanceSegs]
  | cons s rest ih =>
    refine List.Pairwise.cons ?_ ?_
    · intro y hy
      rcases List.mem_map.mp hy with ⟨x, hx, rfl⟩
      have := advanceSegs_mem_ne_nil rest x hx
      cases x with
      | nil => exact absurd rfl this
      | cons a b => simp
    · exact (List.pairwise_map).mpr (ih.imp (fun h => by simpa using h))

theorem mem_advanceSegs_self : ∀ l : List String, l ≠ [] → l ∈ advanceSegs l
  | [], h => absurd rfl h
  | s :: rest, _ => by
    by_cases hr : rest = []
    · subst hr; simp [advanceSegs]
    · exact List.mem_cons.mpr
        (Or.inr (List.mem_map.mpr ⟨rest, mem_advanceSegs_self rest hr, rfl⟩))

theorem advancePaths_nodup (p : SftpPath) : (advancePaths p).Nodup := by
  have hpw := advanceSegs_pairwise_length p.segs
  have hnd : (advanceSegs p.segs).Nodup :=
    hpw.imp (fun h => fun he => absurd h (by simp [he]))
  exact hnd.map (fun l1 l2 h => congrArg SftpPath.segs h)

theorem mem_advancePaths_self (p : SftpPath) (h : p.segs ≠ []) : p ∈ advancePaths p := by
  have := mem_advanceSegs_self p.segs h
  exact List.mem_map.mpr ⟨p.segs, this, rfl⟩

theorem renderSegs_ne_empty (s : String) (rest : List String) (hs : s ≠ "") :
    renderSegs (s :: rest) ≠ "" := by
  cases rest with
  | nil => simpa [renderSegs] using hs
  | cons a b =>
    intro h
    have := congrArg String.length h
    simp [renderSegs, String.length_append] at this
    exact absurd this.1.2 (by decide)

/-- C4: for every path with k segments, path_retreat yields the k rendered
prefixes longest to shortest (the path itself down to, but not including,
the empty or root marker), path_advance yields the same prefixes shortest
to longest, the two lists have length k and are reverses of each other, and
for an absolute path the leading delimiter is part of every yielded prefix
(and the bare root marker is never yielded); on /foo/bar the decomposition
is /foo/bar then /foo, never the bare slash or a prefix without it. -/
theorem claim_c4 :
    (∀ p : SftpPath,
      (path_retreat p).length = p.segs.length ∧
      (path_advance p).length = p.segs.length ∧
      path_retreat p = (path_advance p).reverse ∧
      (p.absolute = true → (∀ x ∈ p.segs, x ≠ "") →
        ∀ s ∈ path_retreat p, ∃ t : String, t ≠ "" ∧ s = "/" ++ t)) ∧
    path_retreat ⟨false, ["foo", "bar", "baz"]⟩ = ["foo/bar/baz", "foo/bar", "foo"] ∧
    path_retreat ⟨true, ["foo", "bar"]⟩ = ["/foo/bar", "/foo"] ∧
    path_advance ⟨false, ["foo", "bar", "baz"]⟩ = ["foo", "foo/bar", "foo/bar/baz"] ∧
    path_advance ⟨true, ["foo", "bar", "baz"]⟩ = ["/foo", "/foo/bar", "/foo/bar/baz"] := by
  refine ⟨?_, by decide, by decide, by decide, by decide⟩
  intro p
  have hrev : path_retreat p = (path_advance p).reverse := by
    simp [path_retreat, path_advance, retreatSegs_eq_reverse_advanceSegs, List.map_reverse]
  have hadv : (path_advance p).length = p.segs.length := by
    simp [path_advance, advanceSegs_length]
  refine ⟨by simp [hrev, hadv], hadv, hrev, ?_⟩
  intro habs hsegs s hs
  rcases List.mem_map.mp hs with ⟨l, hl, rfl⟩
  have hl2 : l ∈ advanceSegs p.segs := by
    have := hl
    rw [retreatSegs_eq_reverse_advanceSegs] at this
    exact List.mem_reverse.mp this
  have hne := advanceSegs_mem_ne_nil p.segs l hl2
  cases l with
  | nil => exact absurd rfl hne
  | cons a b =>
    refine ⟨renderSegs (a :: b), ?_, ?_⟩
    · exact renderSegs_ne_empty a b
        (hsegs a (advanceSegs_mem_subset p.segs (a :: b) hl2 a (by simp)))
    · simp [SftpPath.render, habs]

/-- Witness for C4 at the absolute path with segments foo, bar: its first
retreat element starts with the delimiter. -/
theorem claim_c4_witness :
    ∃ t : String, t ≠ "" ∧ ("/foo/bar" : String) = "/" ++ t :=
  (claim_c4.1 ⟨true, ["foo", "bar"]⟩).2.2.2 rfl (by decide) "/foo/bar" (by decide)

/- ===== Lemmas: Python numeric string conversion ===== -/

theorem digitToChar_toNat : ∀ d, d < 10 → (digitToChar d).toNat = 48 + d := by decide

theorem pyParseIntCore_digits (b : Nat) (hb : b ≤ 10) :
    ∀ (es : List Nat) (acc : Nat), (∀ d ∈ es, d < b) →
      pyParseIntCore b (es.map digitToChar) acc =
        some (es.foldl (fun a d => a * b + d) acc) := by
  intro es
  induction es with
  | nil => intro acc _; rfl
  | cons d rest ih =>
    intro acc hd
    have hdb : d < b := hd d (by simp)
    have h10 : d < 10 := lt_of_lt_of_le hdb hb
    have hch := digitToChar_toNat d h10
    simp only [List.map_cons, pyParseIntCore, pyParseDigit, hch]
    rw [if_pos (by omega)]
    simp only [Nat.add_sub_cancel_left, List.foldl_cons]
    exact ih (acc * b + d) (fun x hx => hd x (by simp [hx]))

theorem foldl_reverse_ofDigits (b : Nat) :
    ∀ (ds : List Nat) (acc : Nat),
      (ds.reverse).foldl (fun a d => a * b + d) acc =
        acc * b ^ ds.length + Nat.ofDigits b ds := by
  intro ds
  induction ds with
  | nil => intro acc; simp [Nat.ofDigits]
  | cons d rest ih =>
    intro acc
    simp only [List.reverse_cons, List.foldl_append, List.foldl_cons, List.foldl_nil]
    rw [ih acc, Nat.ofDigits_cons, List.length_cons]
    ring

theorem pyParseInt_of_digits (b c : Nat) (hb : b ≤ 10) (n : Nat) (hn : n ≠ 0)
    (hdig : ∀ d ∈ Nat.digits c n, d < b) :
    pyParseInt b (((Nat.digits c n).reverse).map digitToChar) =
      some (Nat.ofDigits b (Nat.digits c n)) := by
  have hnil : Nat.digits c n ≠ [] := Nat.digits_ne_nil_iff_ne_zero.mpr hn
  rw [pyParseInt, if_neg (by simpa [List.isEmpty_iff] using hnil)]
  rw [pyParseIntCore_digits b hb _ 0 (fun d hd => hdig d (List.mem_reverse.mp hd))]
  rw [foldl_reverse_ofDigits]
  simp

theorem digits_ten_755 : Nat.digits 10 755 = [5, 5, 7] := by
  simp [Nat.digits_def']

/-- C8: for every mode given as an octal-digit integer (or string), mkdir
interprets the digits in base 8 before passing the mode to the session
primitive: the resulting value has exactly those digits in base 8, and the
literal digits 755 denote 493 (permission bits 7, 5, 5), not the decimal
value 755. -/
theorem claim_c8 :
    (∀ n : Nat, 0 < n → (∀ d ∈ Nat.digits 10 n, d < 8) →
      ∃ m, mkdirSessionMode (PyModeArg.int n) = some m ∧
        Nat.digits 8 m = Nat.digits 10 n) ∧
    mkdirSessionMode (PyModeArg.int 755) = some 493 ∧
    mkdirSessionMode (PyModeArg.str ['7', '5', '5']) = some 493 ∧
    (493 : Nat) ≠ 755 := by
  have hint : ∀ n : Nat, 0 < n → (∀ d ∈ Nat.digits 10 n, d < 8) →
      ∃ m, mkdirSessionMode (PyModeArg.int n) = some m ∧
        Nat.digits 8 m = Nat.digits 10 n := by
    intro n hn hd
    have hn0 : n ≠ 0 := Nat.pos_iff_ne_zero.mp hn
    refine ⟨Nat.ofDigits 8 (Nat.digits 10 n), ?_, ?_⟩
    · rw [mkdirSessionMode, pyStrOfMode, pyStrOfNat, if_neg hn0]
      exact pyParseInt_of_digits 8 10 (by norm_num) n hn0 hd
    · exact Nat.digits_ofDigits 8 (by norm_num) _ hd
        (fun _ => Nat.getLast_digit_ne_zero 10 hn0)
  refine ⟨hint, ?_, by decide, by decide⟩
  rcases hint 755 (by norm_num) (by rw [digits_ten_755]; decide) with ⟨m, hm, hdig⟩
  rw [digits_ten_755] at hdig
  have : m = 493 := by
    have := congrArg (Nat.ofDigits 8) hdig
    rwa [Nat.ofDigits_digits, show Nat.ofDigits 8 [5, 5, 7] = 493 by simp [Nat.ofDigits]] at this
  rw [this] at hm
  exact hm

/-- Witness for C8 at the integer mode 755: the session receives a value
whose base-8 digits are the decimal digits of 755. -/
theorem claim_c8_witness :
    ∃ m, mkdirSessionMode (PyModeArg.int 755) = some m ∧
      Nat.digits 8 m = Nat.digits 10 755 :=
  claim_c8.1 755 (by norm_num) (by rw [digits_ten_755]; decide)

theorem digits_eight_457 : Nat.digits 8 457 = [1, 1, 7] := by
  simp [Nat.digits_def']

theorem digits_eight_420 : Nat.digits 8 420 = [4, 4, 6] := by
  simp [Nat.digits_def']

theorem S_IMODE_of_split (ftype perm : Nat) (hperm : perm < 4096) :
    S_IMODE (ftype * 4096 + perm) = perm := by
  rw [S_IMODE, show (0o7777 : Nat) = 2 ^ 12 - 1 by norm_num,
    Nat.and_pow_two_sub_one_eq_mod]
  have h : (2 : Nat) ^ 12 = 4096 := by norm_num
  rw [h]
  omega

/-- C9: for every raw st_mode value, st_mode_to_int strips the file-type
bits and returns only the permission bits, rendered as a base-8 digit
string read back as a decimal integer: the result has, in base 10, exactly
the base-8 digits of the permission part, so a raw mode with permission
part octal 711 yields the integer 711 (not the decimal value 457), and one
with permission 644 yields 644. -/
theorem claim_c9 :
    (∀ ftype perm : Nat, perm < 4096 →
      ∃ m, st_mode_to_int (ftype * 4096 + perm) = some m ∧
        Nat.digits 10 m = Nat.digits 8 perm) ∧
    st_mode_to_int 33225 = some 711 ∧
    st_mode_to_int 33188 = some 644 ∧
    (711 : Nat) ≠ 457 := by
  have hgen : ∀ ftype perm : Nat, perm < 4096 →
      ∃ m, st_mode_to_int (ftype * 4096 + perm) = some m ∧
        Nat.digits 10 m = Nat.digits 8 perm := by
    intro ftype perm hperm
    have hmask := S_IMODE_of_split ftype perm hperm
    by_cases h0 : perm = 0
    · subst h0
      refine ⟨0, ?_, by simp⟩
      rw [st_mode_to_int, hmask]
      decide
    · have hd8 : ∀ d ∈ Nat.digits 8 perm, d < 8 :=
        fun d hd => Nat.digits_lt_base (by norm_num) hd
      have hd10 : ∀ d ∈ (Nat.digits 8 perm).reverse, d < 10 :=
        fun d hd => lt_trans (hd8 d (List.mem_reverse.mp hd)) (by norm_num)
      refine ⟨Nat.ofDigits 10 (Nat.digits 8 perm), ?_, ?_⟩
      · rw [st_mode_to_int, hmask, pyOct, if_neg h0, pyParseInt,
          if_neg (by simp)]
        have hzero : pyParseDigit 10 '0' = some 0 := by decide
        simp only [pyParseIntCore, hzero]
        rw [pyParseIntCore_digits 10 (le_refl 10) _ _ hd10]
        rw [foldl_reverse_ofDigits]
        norm_num
      · exact Nat.digits_ofDigits 10 (by norm_num) _
          (fun l hl => lt_trans (hd8 l hl) (by norm_num))
          (fun _ => Nat.getLast_digit_ne_zero 8 h0)
  refine ⟨hgen, ?_, ?_, by decide⟩
  · rcases hgen 8 457 (by norm_num) with ⟨m, hm, hdig⟩
    rw [digits_eight_457] at hdig
    have hm457 : m = 711 := by
      have := congrArg (Nat.ofDigits 10) hdig
      rwa [Nat.ofDigits_digits, show Nat.ofDigits 10 [1, 1, 7] = 711 by simp [Nat.ofDigits]] at this
    rw [hm457] at hm
    exact (by norm_num : (8 : Nat) * 4096 + 457 = 33225) ▸ hm
  · rcases hgen 8 420 (by norm_num) with ⟨m, hm, hdig⟩
    rw [digits_eight_420] at hdig
    have hm420 : m = 644 := by
      have := congrArg (Nat.ofDigits 10) hdig
      rwa [Nat.ofDigits_digits, show Nat.ofDigits 10 [4, 4, 6] = 644 by simp [Nat.ofDigits]] at this
    rw [hm420] at hm
    exact (by norm_num : (8 : Nat) * 4096 + 420 = 33188) ▸ hm

/-- Witness for C9 at the raw mode of a regular file with permission octal
711: the integer 711 comes back. -/
theorem claim_c9_witness :
    ∃ m, st_mode_to_int (8 * 4096 + 457) = some m ∧
      Nat.digits 10 m = Nat.digits 8 457 :=
  claim_c9.1 8 457 (by norm_num)

/- ===== Lemmas and claims: credential resolution ===== -/

/-- C1: credential resolution at construction selects exactly one
authentication directive in this order: a given password selects password
authentication and any private-key input is silently ignored (no error);
otherwise, with no private key given, the default locations id_rsa then
id_dsa are probed in that order and the first existing file wins; if
neither exists, construction fails with the credential error. -/
theorem claim_c1 :
    (∀ (pw : String) (pk : Option PrivateKeyArg) (env : LocalEnv),
      resolveAuth (some pw) pk env = Except.ok (AuthDirective.usePassword pw)) ∧
    (∀ (pk : Option PrivateKeyArg) (env : LocalEnv), pyFalsyKey pk = true →
      env.id_rsa_exists = true →
      resolveAuth none pk env =
        Except.ok (AuthDirective.useKey (PrivateKeyArg.keyPath "~/.ssh/id_rsa"))) ∧
    (∀ (pk : Option PrivateKeyArg) (env : LocalEnv), pyFalsyKey pk = true →
      env.id_rsa_exists = false → env.id_dsa_exists = true →
      resolveAuth none pk env =
        Except.ok (AuthDirective.useKey (PrivateKeyArg.keyPath "~/.ssh/id_dsa"))) ∧
    (∀ (pk : Option PrivateKeyArg) (env : LocalEnv), pyFalsyKey pk = true →
      env.id_rsa_exists = false → env.id_dsa_exists = false →
      resolveAuth none pk env =
        Except.error (InitError.credentialError
          "You have not specified a password or key.")) := by
  refine ⟨fun pw pk env => rfl, ?_, ?_, ?_⟩
  · intro pk env h1 h2
    simp [resolveAuth, h1, h2]
  · intro pk env h1 h2 h3
    simp [resolveAuth, h1, h2, h3]
  · intro pk env h1 h2 h3
    simp [resolveAuth, h1, h2, h3]

/-- Witness for C1: with a password and an agent key both supplied the
password wins, and with no credentials and no default key files the
credential error is raised. -/
theorem claim_c1_witness :
    resolveAuth (some "pw") (some PrivateKeyArg.agentKey) ⟨true, true⟩ =
      Except.ok (AuthDirective.usePassword "pw") ∧
    resolveAuth none none ⟨false, false⟩ =
      Except.error (InitError.credentialError
        "You have not specified a password or key.") :=
  ⟨claim_c1.1 "pw" (some PrivateKeyArg.agentKey) ⟨true, true⟩,
   claim_c1.2.2.2 none ⟨false, false⟩ rfl rfl rfl⟩

/- ===== Lemmas and claims: existence helpers ===== -/

/-- C2: for every path, exists is true iff stat succeeds (following
symlinks) and false exactly on a not-found error, which is converted to a
boolean and not re-raised while every other error propagates unchanged;
lexists uses lstat instead, so a dangling symlink is lexists but not
exists; isfile and isdir are never both true and are both false for a
non-existent path. -/
theorem claim_c2 {α : Type} [DecidableEq α] (fs : RemoteFS α) (p : α) :
    (existsFS fs p = Except.ok true ↔ ∃ k, statFS fs p = Except.ok k) ∧
    (existsFS fs p = Except.ok false ↔
      statFS fs p = Except.error SftpErr.noSuchFile) ∧
    (∀ e, e ≠ SftpErr.noSuchFile →
      (existsFS fs p = Except.error e ↔ statFS fs p = Except.error e)) ∧
    (lexistsFS fs p = Except.ok true ↔ ∃ e, lstatFS fs p = Except.ok e) ∧
    (∀ t, lookupFS fs p = some (REntry.symlink t) → lookupFS fs t = none →
      lexistsFS fs p = Except.ok true ∧ existsFS fs p = Except.ok false) ∧
    ¬(isfileFS fs p = Except.ok true ∧ isdirFS fs p = Except.ok true) ∧
    (existsFS fs p = Except.ok false →
      isfileFS fs p = Except.ok false ∧ isdirFS fs p = Except.ok false) := by
  have hexists : ∀ P : Prop, P ↔ P := fun _ => Iff.rfl
  refine ⟨?_, ?_, ?_, ?_, ?_, ?_, ?_⟩
  · cases h : statFS fs p with
    | ok k => simp [existsFS, h]
    | error e => cases e <;> simp [existsFS, h]
  · cases h : statFS fs p with
    | ok k => simp [existsFS, h]
    | error e => cases e <;> simp [existsFS, h]
  · intro e he
    cases h : statFS fs p with
    | ok k => simp [existsFS, h]
    | error e2 =>
      cases e2 with
      | noSuchFile =>
        simp [existsFS, h]
        exact fun h2 => he h2.symm
      | alreadyExists => simp [existsFS, h]
      | otherError => simp [existsFS, h]
  · cases h : lstatFS fs p with
    | ok k => simp [lexistsFS, h]
    | error e => cases e <;> simp [lexistsFS, h]
  · intro t hlink htgt
    cases fs with
    | nil => simp [lookupFS] at hlink
    | cons hd tl =>
      constructor
      · simp [lexistsFS, lstatFS, hlink]
      · have hstat : statFS (hd :: tl) p = Except.error SftpErr.noSuchFile := by
          simp [statFS, List.length_cons, statResolve, hlink, htgt]
        simp [existsFS, hstat]
  · rintro ⟨hf, hd⟩
    cases h : statFS fs p with
    | ok k => cases k <;> simp [isfileFS, isdirFS, h] at hf hd
    | error e => cases e <;> simp [isfileFS, isdirFS, h] at hf hd
  · intro hfalse
    have hstat : statFS fs p = Except.error SftpErr.noSuchFile := by
      cases h : statFS fs p with
      | ok k => simp [existsFS, h] at hfalse
      | error e =>
        cases e with
        | noSuchFile => rfl
        | alreadyExists => simp [existsFS, h] at hfalse
        | otherError => simp [existsFS, h] at hfalse
    exact ⟨by simp [isfileFS, hstat], by simp [isdirFS, hstat]⟩

/-- Witness for C2 at a one-entry filesystem holding a dangling symlink:
the path lexists but does not exist. -/
theorem claim_c2_witness :
    lexistsFS [((1 : Nat), REntry.symlink 2)] 1 = Except.ok true ∧
    existsFS [((1 : Nat), REntry.symlink 2)] 1 = Except.ok false :=
  (claim_c2 [((1 : Nat), REntry.symlink 2)] 1).2.2.2.2.1 2 (by decide) (by decide)

/- ===== Lemmas and claim: makedirs ===== -/

theorem lookupFS_append_single {α : Type} [DecidableEq α]
    (fs : RemoteFS α) (q x : α) (e : REntry α) :
    lookupFS (fs ++ [(q, e)]) x =
      match lookupFS fs x with
      | some y => some y
      | none => if x = q then some e else none := by
  induction fs with
  | nil => simp [lookupFS]
  | cons hd tl ih =>
    rcases hd with ⟨a, b⟩
    by_cases hx : x = a
    · simp [lookupFS, hx]
    · simp only [List.cons_append, lookupFS, if_neg hx]
      exact ih

theorem makedirsGo_spec {α : Type} [DecidableEq α] :
    ∀ (qs : List α) (fs : RemoteFS α), qs.Nodup →
      (∀ q ∈ qs, lookupFS fs q = none ∨ lookupFS fs q = some REntry.dir) →
      ∃ fs2, makedirsGo fs qs =
          Except.ok (fs2, qs.filter (fun q => (lookupFS fs q).isNone)) ∧
        (∀ q ∈ qs, lookupFS fs2 q = some REntry.dir) ∧
        (∀ q, q ∉ qs → lookupFS fs2 q = lookupFS fs q) := by
  intro qs
  induction qs with
  | nil => exact fun fs _ _ => ⟨fs, rfl, by simp, fun q _ => rfl⟩
  | cons q rest ih =>
    intro fs hnd hcompat
    have hndr : rest.Nodup := (List.nodup_cons.mp hnd).2
    have hqnr : q ∉ rest := (List.nodup_cons.mp hnd).1
    rcases hcompat q (by simp) with hnone | hdir
    · have hmk : mkdirFS fs q = Except.ok (fs ++ [(q, REntry.dir)]) := by
        simp [mkdirFS, hnone]
      have hlookA : ∀ x, lookupFS (fs ++ [(q, REntry.dir)]) x =
          if x = q then some REntry.dir else lookupFS fs x := by
        intro x
        rw [lookupFS_append_single]
        by_cases hx : x = q
        · subst hx
          rw [hnone]
        · cases hy : lookupFS fs x <;> simp [hx, hy]
      have hcompA : ∀ x ∈ rest, lookupFS (fs ++ [(q, REntry.dir)]) x = none ∨
          lookupFS (fs ++ [(q, REntry.dir)]) x = some REntry.dir := by
        intro x hx
        have hxq : x ≠ q := fun h => hqnr (h ▸ hx)
        rw [hlookA, if_neg hxq]
        exact hcompat x (by simp [hx])
      rcases ih (fs ++ [(q, REntry.dir)]) hndr hcompA with ⟨fs2, hrun, hall, hpres⟩
      have hfilter : rest.filter (fun x => (lookupFS (fs ++ [(q, REntry.dir)]) x).isNone) =
          rest.filter (fun x => (lookupFS fs x).isNone) := by
        apply List.filter_congr
        intro x hx
        have hxq : x ≠ q := fun h => hqnr (h ▸ hx)
        rw [hlookA, if_neg hxq]
      refine ⟨fs2, ?_, ?_, ?_⟩
      · simp only [makedirsGo, hmk, hrun, hfilter]
        simp [List.filter_cons, hnone]
      · intro x hx
        rcases List.mem_cons.mp hx with rfl | hxr
        · rw [hpres x hqnr, hlookA, if_pos rfl]
        · exact hall x hxr
      · intro x hx
        have hxq : x ≠ q := fun h => hx (by simp [h])
        have hxr : x ∉ rest := fun h => hx (by simp [h])
        rw [hpres x hxr, hlookA, if_neg hxq]
    · have hmk : mkdirFS fs q = Except.error SftpErr.alreadyExists := by
        simp [mkdirFS, hdir]
      rcases ih fs hndr (fun x hx => hcompat x (by simp [hx])) with ⟨fs2, hrun, hall, hpres⟩
      refine ⟨fs2, ?_, ?_, ?_⟩
      · simp only [makedirsGo, hmk, hrun]
        simp [List.filter_cons, hdir]
      · intro x hx
        rcases List.mem_cons.mp hx with rfl | hxr
        · rw [hpres x hqnr]
          exact hdir
        · exact hall x hxr
      · intro x hx
        exact hpres x (fun h => hx (by simp [h]))

/-- C3: for every path, makedirs walks the prefixes shortest to longest
creating each missing prefix with mkdir, tolerates already-exists errors at
any level so a partially-existing path completes successfully, creates
exactly the missing prefixes and none already present, leaves existing
entries outside the prefix chain unchanged and existing prefix directories
still directories, and afterwards isdir on the path is true. -/
theorem claim_c3 (fs : RemoteFS SftpPath) (p : SftpPath)
    (hcompat : ∀ q ∈ advancePaths p,
      lookupFS fs q = none ∨ lookupFS fs q = some REntry.dir) :
    ∃ fs2 created, makedirsFS fs p = Except.ok (fs2, created) ∧
      created = (advancePaths p).filter (fun q => (lookupFS fs q).isNone) ∧
      (∀ q ∈ advancePaths p, lookupFS fs2 q = some REntry.dir) ∧
      (∀ q, q ∉ advancePaths p → lookupFS fs2 q = lookupFS fs q) ∧
      (p.segs ≠ [] → isdirFS fs2 p = Except.ok true) := by
  rcases makedirsGo_spec (advancePaths p) fs (advancePaths_nodup p) hcompat with
    ⟨fs2, hrun, hall, hpres⟩
  refine ⟨fs2, (advancePaths p).filter (fun q => (lookupFS fs q).isNone),
    hrun, rfl, hall, hpres, ?_⟩
  intro hsegs
  have hdirp := hall p (mem_advancePaths_self p hsegs)
  have hstat : statFS fs2 p = Except.ok FileKind.dir := by
    cases h2 : fs2 with
    | nil => rw [h2] at hdirp; simp [lookupFS] at hdirp
    | cons hd tl =>
      rw [h2] at hdirp
      simp [statFS, List.length_cons, statResolve, hdirp]
  simp [isdirFS, hstat]

/-- Witness for C3: on a filesystem where only the first prefix exists,
makedirs on a two-segment path creates exactly the missing leaf and isdir
becomes true on the full path. -/
theorem claim_c3_witness :
    ∃ fs2 created,
      makedirsFS [((⟨false, ["foo"]⟩ : SftpPath), REntry.dir)] ⟨false, ["foo", "bar"]⟩ =
        Except.ok (fs2, created) ∧
      created = (advancePaths ⟨false, ["foo", "bar"]⟩).filter
        (fun q => (lookupFS [((⟨false, ["foo"]⟩ : SftpPath), REntry.dir)] q).isNone) ∧
      (∀ q ∈ advancePaths ⟨false, ["foo", "bar"]⟩,
        lookupFS fs2 q = some REntry.dir) ∧
      (∀ q, q ∉ advancePaths ⟨false, ["foo", "bar"]⟩ →
        lookupFS fs2 q = lookupFS [((⟨false, ["foo"]⟩ : SftpPath), REntry.dir)] q) ∧
      ((⟨false, ["foo", "bar"]⟩ : SftpPath).segs ≠ [] →
        isdirFS fs2 ⟨false, ["foo", "bar"]⟩ = Except.ok true) :=
  claim_c3 [((⟨false, ["foo"]⟩ : SftpPath), REntry.dir)] ⟨false, ["foo", "bar"]⟩ (by decide)

/- ===== Lemmas and claims: session lifecycle ===== -/

theorem methodStep_eq_sftpConnect (m : SftpMethod) (s : ConnState) :
    methodStep m s = sftpConnect s := by
  cases m <;> rfl

theorem sftpConnect_ok (s s2 : ConnState) (h : sftpConnect s = Except.ok s2) :
    s2.sftp_live = true ∧ sftpConnect s2 = Except.ok s2 ∧
    (s.sftp_live = true → s2 = s) ∧
    (s.sftp_live = false → s2.sessionsCreated = s.sessionsCreated + 1) := by
  rcases s with ⟨a, b, c, d⟩
  cases a with
  | true =>
    simp only [sftpConnect, if_pos] at h
    simp at h
    subst h
    exact ⟨rfl, by simp [sftpConnect], fun _ => rfl, fun h2 => by simp at h2⟩
  | false =>
    cases b with
    | true =>
      simp [sftpConnect] at h
      subst h
      exact ⟨rfl, by simp [sftpConnect], fun h2 => by simp at h2, fun _ => rfl⟩
    | false => simp [sftpConnect] at h

/-- C5 counterexample: with the protocol session not yet open, execute
succeeds in delegating (a command channel is opened on the transport) while
the session flag stays down, so execute does not ensure the session is open
before delegating. -/
theorem claim_c5_counterexample :
    executeStep ⟨false, true, 0, 0⟩ = Except.ok ⟨false, true, 0, 1⟩ ∧
    (⟨false, true, 0, 1⟩ : ConnState).sftp_live = false := ⟨rfl, rfl⟩

/-- C5 (amended): the internal session opener is idempotent, creating the
protocol session from the transport on its first successful call and a
no-op on every later call, and each of the thirteen session-delegating
remote-operation methods (get, getfo, put, chdir, getcwd, listdir, mkdir,
remove, rmdir, rename, stat, lstat, open) ensures the session is open
before delegating; execute instead opens a dedicated channel directly on
the transport, neither using nor opening the protocol session. -/
theorem claim_c5 :
    (∀ s s2 : ConnState, sftpConnect s = Except.ok s2 →
      s2.sftp_live = true ∧ sftpConnect s2 = Except.ok s2 ∧
      (s.sftp_live = true → s2 = s) ∧
      (s.sftp_live = false → s2.sessionsCreated = s.sessionsCreated + 1)) ∧
    (∀ (m : SftpMethod) (s s2 : ConnState), methodStep m s = Except.ok s2 →
      s2.sftp_live = true) ∧
    (∀ s s2 : ConnState, executeStep s = Except.ok s2 →
      s2.sftp_live = s.sftp_live ∧ s2.sessionsCreated = s.sessionsCreated ∧
      s2.channelsOpened = s.channelsOpened + 1) := by
  refine ⟨sftpConnect_ok, ?_, ?_⟩
  · intro m s s2 h
    rw [methodStep_eq_sftpConnect] at h
    exact (sftpConnect_ok s s2 h).1
  · rintro ⟨a, b, c, d⟩ s2 h
    cases b with
    | true =>
      simp [executeStep] at h
      subst h
      exact ⟨rfl, rfl, rfl⟩
    | false => simp [executeStep] at h

/-- Witness for C5: a fresh connection state goes live after the session
opener, and the call is then a no-op. -/
theorem claim_c5_witness :
    (⟨true, true, 1, 0⟩ : ConnState).sftp_live = true ∧
    sftpConnect ⟨true, true, 1, 0⟩ = Except.ok ⟨true, true, 1, 0⟩ := by
  have h := claim_c5.1 ⟨false, true, 0, 0⟩ ⟨true, true, 1, 0⟩ rfl
  exact ⟨h.1, h.2.1⟩

/-- C6 counterexample: when construction fails at the username lookup
(before the transport flag is ever assigned), close raises AttributeError,
so close is not safe on a Connection whose construction failed at any
point. -/
theorem claim_c6_counterexample :
    pyClose (stateAtFailure InitFailPoint.lognameLookup) =
      Except.error PyRuntimeErr.attributeError := rfl

/-- C6 (amended): close releases the session and then the transport, each
release step is independently guarded and idempotent (closing an already
closed Connection is a no-op that raises nothing), and close is safe on any
state in which both liveness flags have been assigned — which includes
every construction failure from transport establishment onward — while a
construction failure before the transport flag is assigned leaves close
raising AttributeError. -/
theorem claim_c6 :
    (∀ (s : PyAttrState) (sl tl : Bool),
      s.sftp_live = some sl → s.tranport_live = some tl →
      ∃ s2, pyClose s = Except.ok (s2,
          (if sl then [CloseEvent.sftpClosed] else []) ++
          (if tl then [CloseEvent.transportClosed] else [])) ∧
        s2.sftp_live = some false ∧ s2.tranport_live = some false ∧
        pyClose s2 = Except.ok (s2, [])) ∧
    pyClose (stateAtFailure InitFailPoint.transportCtor) =
      Except.ok (⟨some false, some false⟩, []) ∧
    pyClose (stateAtFailure InitFailPoint.authenticate) =
      Except.ok (⟨some false, some false⟩, [CloseEvent.transportClosed]) := by
  refine ⟨?_, rfl, rfl⟩
  rintro ⟨osl, otl⟩ sl tl h1 h2
  simp only at h1 h2
  subst h1
  subst h2
  refine ⟨⟨some false, some false⟩, ?_, rfl, rfl, rfl⟩
  cases sl <;> cases tl <;> rfl

/-- Witness for C6: closing a fully live Connection closes the session and
then the transport, and a second close is a no-op. -/
theorem claim_c6_witness :
    ∃ s2, pyClose ⟨some true, some true⟩ = Except.ok (s2,
        [CloseEvent.sftpClosed, CloseEvent.transportClosed]) ∧
      s2.sftp_live = some false ∧ s2.tranport_live = some false ∧
      pyClose s2 = Except.ok (s2, []) := by
  have h := claim_c6.1 ⟨some true, some true⟩ true true rfl rfl
  simpa using h

/- ===== Lemmas and claim: session/transport invariant ===== -/

theorem connStep_preserves_inv (s : ConnState) (op : ConnOp)
    (h : s.sftp_live = true → s.tranport_live = true) :
    (connStep s op).sftp_live = true → (connStep s op).tranport_live = true := by
  rcases s with ⟨a, b, c, d⟩
  cases op with
  | method m =>
    simp only [connStep, methodStep_eq_sftpConnect]
    cases a <;> cases b <;> simp_all [sftpConnect]
  | execute =>
    cases b <;> simp_all [connStep, executeStep]
  | close =>
    cases a <;> cases b <;> simp [connStep, closeStep]

theorem connStep_transport_mono (s : ConnState) (op : ConnOp)
    (h : s.tranport_live = false) : (connStep s op).tranport_live = false := by
  rcases s with ⟨a, b, c, d⟩
  simp only at h
  subst h
  cases op with
  | method m =>
    simp only [connStep, methodStep_eq_sftpConnect]
    cases a <;> simp [sftpConnect]
  | execute => simp [connStep, executeStep]
  | close => cases a <;> simp [connStep, closeStep]

theorem runOps_preserves_inv (ops : List ConnOp) :
    ∀ s : ConnState, (s.sftp_live = true → s.tranport_live = true) →
      ((runOps s ops).sftp_live = true → (runOps s ops).tranport_live = true) := by
  induction ops with
  | nil => exact fun s h => h
  | cons op rest ih =>
    intro s h
    exact ih (connStep s op) (connStep_preserves_inv s op h)

theorem runOps_transport_mono (ops : List ConnOp) :
    ∀ s : ConnState, s.tranport_live = false →
      (runOps s ops).tranport_live = false := by
  induction ops with
  | nil => exact fun s h => h
  | cons op rest ih =>
    intro s h
    exact ih (connStep s op) (connStep_transport_mono s op h)

/-- C7: in every state of a Connection reachable from construction by any
sequence of its operations, the protocol session flag is up only if the
transport flag is up, and once the transport flag is down it stays down
under every further operation sequence — the transport is never reopened on
the same Connection instance. -/
theorem claim_c7 (ops : List ConnOp) :
    ((runOps initConnState ops).sftp_live = true →
      (runOps initConnState ops).tranport_live = true) ∧
    (∀ more : List ConnOp, (runOps initConnState ops).tranport_live = false →
      (runOps initConnState (ops ++ more)).tranport_live = false) := by
  constructor
  · exact runOps_preserves_inv ops initConnState (fun _ => rfl)
  · intro more h
    rw [runOps, List.foldl_append]
    exact runOps_transport_mono more (runOps initConnState ops) h

/-- Witness for C7: after a remote operation and a close, the transport
flag is down and stays down across a further remote operation. -/
theorem claim_c7_witness :
    (runOps initConnState ([ConnOp.method SftpMethod.listdir, ConnOp.close] ++
      [ConnOp.method SftpMethod.stat])).tranport_live = false :=
  (claim_c7 [ConnOp.method SftpMethod.listdir, ConnOp.close]).2
    [ConnOp.method SftpMethod.stat] (by decide)

/- ===== Lemmas and claim: default destination paths of get and put ===== -/

theorem takeWhile_all (p : Char → Bool) :
    ∀ xs : List Char, (∀ c ∈ xs, p c = true) → xs.takeWhile p = xs := by
  intro xs
  induction xs with
  | nil => intro _; rfl
  | cons a rest ih =>
    intro hall
    rw [List.takeWhile_cons_of_pos (hall a (by simp))]
    rw [ih (fun c hc => hall c (by simp [hc]))]

theorem takeWhile_all_append (p : Char → Bool) (xs : List Char) (y : Char)
    (ys : List Char) (hall : ∀ c ∈ xs, p c = true) (hy : p y = false) :
    (xs ++ y :: ys).takeWhile p = xs := by
  induction xs with
  | nil =>
    simp only [List.nil_append]
    rw [List.takeWhile_cons_of_neg (by simp [hy])]
  | cons a rest ih =>
    simp only [List.cons_append]
    rw [List.takeWhile_cons_of_pos (hall a (by simp))]
    rw [ih (fun c hc => hall c (by simp [hc]))]

/-- C10: when get receives no (or an empty) localpath the destination is
exactly the final path component of remotepath, and symmetrically when put
receives no (or an empty) remotepath the destination is exactly the final
path component of localpath; when both paths are supplied they pass through
unchanged; the tail taken after the last delimiter is the final component
whenever that component has no delimiter in it, and a delimiter-free path
is its own final component. -/
theorem claim_c10 :
    (∀ r : List Char, getEffectiveLocal r none = pyBasename r ∧
      getEffectiveLocal r (some []) = pyBasename r) ∧
    (∀ (r l : List Char), l ≠ [] → getEffectiveLocal r (some l) = l) ∧
    (∀ l : List Char, putEffectiveRemote l none = pyBasename l ∧
      putEffectiveRemote l (some []) = pyBasename l) ∧
    (∀ (l r : List Char), r ≠ [] → putEffectiveRemote l (some r) = r) ∧
    (∀ dir name : List Char, '/' ∉ name → pyBasename (dir ++ '/' :: name) = name) ∧
    (∀ name : List Char, '/' ∉ name → pyBasename name = name) := by
  have hbase : ∀ dir name : List Char, '/' ∉ name →
      pyBasename (dir ++ '/' :: name) = name := by
    intro dir name h
    rw [pyBasename, List.reverse_append, List.reverse_cons, List.append_assoc,
      List.singleton_append]
    rw [takeWhile_all_append _ _ _ _
      (fun c hc => by
        have hcm : c ∈ name := List.mem_reverse.mp hc
        have hne : c ≠ '/' := fun heq => h (heq ▸ hcm)
        simp [hne])
      (by simp)]
    exact List.reverse_reverse name
  refine ⟨fun r => ⟨rfl, rfl⟩, ?_, fun l => ⟨rfl, rfl⟩, ?_, hbase, ?_⟩
  · intro r l hl
    cases l with
    | nil => exact absurd rfl hl
    | cons a rest => rfl
  · intro l r hr
    cases r with
    | nil => exact absurd rfl hr
    | cons a rest => rfl
  · intro name h
    rw [pyBasename, takeWhile_all _ _
      (fun c hc => by
        have hcm : c ∈ name := List.mem_reverse.mp hc
        have hne : c ≠ '/' := fun heq => h (heq ▸ hcm)
        simp [hne])]
    exact List.reverse_reverse name

/-- Witness for C10: a missing localpath defaults to the final component of
the remote path, and a supplied remotepath passes through unchanged. -/
theorem claim_c10_witness :
    getEffectiveLocal ['a', '/', 'b'] none = ['b'] ∧
    putEffectiveRemote ['a', '/', 'b'] (some ['c']) = ['c'] := by
  constructor
  · have h1 := (claim_c10.1 ['a', '/', 'b']).1
    have h2 := claim_c10.2.2.2.2.1 ['a'] ['b'] (by decide)
    rw [h1]
    simpa using h2
  · exact claim_c10.2.2.2.1 ['a', '/', 'b'] ['c'] (by decide)
